import Mathlib

/-!
Verification of the BuildMate roadmap task-graph state machine.

The definitions below are a shallow embedding of the TypeScript source:
* `toggleTaskDone` and its helpers embed the function of the same name in
  src/app/project/[id]/page.tsx (lines 87-173);
* `validateAndNormalize` embeds the roadmap validation/normalization block of
  the generation route in src/unnamed/part_001 (lines 181-217), and
  `createProjectRoute` the corresponding block of
  src/app/api/create-project/route.ts (lines 81-111), which performs no
  structural validation.

JavaScript numbers are modelled as exact rationals; Math.round on a
nonnegative value is floor (x + 1/2).  Fallible operations return Option or
Except.  Reference-aliasing effects of the source (mutation of task objects
shared between the freshly built milestone list and the caller's roadmap)
are modelled explicitly by `inputAfterToggle`.
-/

namespace BuildMate

/-- A learning resource attached to a task (src/app/project/[id]/page.tsx lines 9-19). -/
structure Resource where
  title : String
  url : String
  kind : String
deriving DecidableEq, Repr

/-- A task of a roadmap (interface Task, src/app/project/[id]/page.tsx lines 9-19). -/
structure Task where
  id : String
  title : String
  description : String
  estimatedHours : ℚ
  difficulty : String
  requiredSkills : List String
  resources : List Resource
  done : Bool
  locked : Bool
deriving DecidableEq, Repr

/-- A milestone of a roadmap (interface Milestone, src/app/project/[id]/page.tsx lines 21-27). -/
structure Milestone where
  id : String
  title : String
  description : String
  estimatedHours : ℚ
  tasks : List Task
deriving DecidableEq, Repr

/-- A roadmap: the milestone list of a project (ProjectData.roadmap). -/
structure Roadmap where
  milestones : List Milestone
deriving DecidableEq, Repr

/-- Derived progress metrics (ProjectData.progress). -/
structure Progress where
  completedTasks : ℕ
  totalTasks : ℕ
  progressPercent : ℤ
deriving DecidableEq, Repr

/-- The current-task lookup of toggleTaskDone (page.tsx lines 90-100): scan
milestones in order, tasks in order, and return the first task in a milestone
whose id equals milestoneId with task id equal to taskId. -/
def findCurrentTask (r : Roadmap) (milestoneId taskId : String) : Option Task :=
  r.milestones.findSome? fun m =>
    m.tasks.find? fun t => m.id == milestoneId && t.id == taskId

/-- The updatedMilestones construction of toggleTaskDone (page.tsx lines
106-119): in every milestone whose id equals milestoneId, every task whose id
equals taskId gets its done flag negated; all other values are kept. -/
def updatedMilestones (r : Roadmap) (milestoneId taskId : String) : List Milestone :=
  r.milestones.map fun m =>
    if m.id == milestoneId then
      { m with tasks := m.tasks.map fun t =>
          if t.id == taskId then { t with done := !t.done } else t }
    else m

/-- Inner loop of the next-task scan of toggleTaskDone (page.tsx lines
126-135) over the tasks of one milestone with id mId, threading the
foundCurrent flag; returns the updated flag and the ids of the first task
found locked and not done after foundCurrent became true. -/
def scanTasks (milestoneId taskId mId : String) :
    Bool → List Task → Bool × Option (String × String)
  | found, [] => (found, none)
  | found, t :: ts =>
    if found && t.locked && !t.done then (found, some (mId, t.id))
    else scanTasks milestoneId taskId mId
      (found || (mId == milestoneId && t.id == taskId)) ts

/-- Outer loop of the next-task scan of toggleTaskDone (page.tsx lines
122-137) over the milestone list. -/
def scanMilestones (milestoneId taskId : String) :
    Bool → List Milestone → Option (String × String)
  | _, [] => none
  | found, m :: ms =>
    match scanTasks milestoneId taskId m.id found m.tasks with
    | (_, some nt) => some nt
    | (found2, none) => scanMilestones milestoneId taskId found2 ms

/-- The unlock step of toggleTaskDone (page.tsx lines 140-150): set locked to
false on every task whose id equals nextTaskId inside every milestone whose id
equals nextMilestoneId. -/
def unlockNext (ms : List Milestone) (nextMilestoneId nextTaskId : String) :
    List Milestone :=
  ms.map fun m =>
    if m.id == nextMilestoneId then
      { m with tasks := m.tasks.map fun t =>
          if t.id == nextTaskId then { t with locked := false } else t }
    else m

/-- Total task count of a milestone list (page.tsx lines 154-161). -/
def totalTasksOf (ms : List Milestone) : ℕ :=
  (ms.map fun m => m.tasks.length).sum

/-- Completed task count of a milestone list (page.tsx lines 154-161). -/
def completedTasksOf (ms : List Milestone) : ℕ :=
  (ms.map fun m => (m.tasks.filter fun t => t.done).length).sum

/-- JavaScript Math.round on a nonnegative rational: round half toward
positive infinity, i.e. floor (q + 1/2). -/
def jsRound (q : ℚ) : ℤ := ⌊q + 1/2⌋

/-- The toggleTaskDone operation (page.tsx lines 87-173).  Returns none when
the (milestoneId, taskId) pair resolves to no task or to a locked task: the
source returns early and persists nothing.  Otherwise returns the milestone
list and the progress record written to the document store. -/
def toggleTaskDone (r : Roadmap) (milestoneId taskId : String) :
    Option (Roadmap × Progress) :=
  match findCurrentTask r milestoneId taskId with
  | none => none
  | some currentTask =>
    if currentTask.locked then none
    else
      let isMarkingAsDone := !currentTask.done
      let ms1 := updatedMilestones r milestoneId taskId
      let ms2 :=
        if isMarkingAsDone then
          match scanMilestones milestoneId taskId false ms1 with
          | some (nmid, ntid) => unlockNext ms1 nmid ntid
          | none => ms1
        else ms1
      let completed := completedTasksOf ms2
      let total := totalTasksOf ms2
      some (⟨ms2⟩, ⟨completed, total,
        jsRound ((completed : ℚ) / (total : ℚ) * 100)⟩)

/-- The roadmap state held by the document store after a call of
toggleTaskDone: the written roadmap on success, the unchanged input when the
call returned early. -/
def applyToggle (r : Roadmap) (milestoneId taskId : String) : Roadmap :=
  match toggleTaskDone r milestoneId taskId with
  | none => r
  | some (r2, _) => r2

/-- All tasks of a milestone list in global task order, each tagged with the
id of its enclosing milestone. -/
def taggedTasks (ms : List Milestone) : List (String × Task) :=
  (ms.map fun m => m.tasks.map fun t => (m.id, t)).flatten

/-- All tasks of a roadmap in global task order, tagged with milestone ids. -/
def allTasksTagged (r : Roadmap) : List (String × Task) :=
  taggedTasks r.milestones

/-- All tasks of a roadmap in global task order. -/
def allTasks (r : Roadmap) : List Task :=
  (allTasksTagged r).map Prod.snd

/-- Well-formed ids, as produced by generation (spec section 3): the task ids
of a roadmap are pairwise distinct in global task order. -/
def WfTaskIds (r : Roadmap) : Prop :=
  ((allTasks r).map Task.id).Nodup

instance (r : Roadmap) : Decidable (WfTaskIds r) := by
  unfold WfTaskIds; infer_instance

/-- A concrete task with the given id and flags; display metadata is fixed. -/
def mkTask (id : String) (done locked : Bool) : Task :=
  { id := id, title := id, description := "d", estimatedHours := 1,
    difficulty := "easy", requiredSkills := [], resources := [],
    done := done, locked := locked }

/-- The sample roadmap of the spec (section 8, sample end-to-end): two
milestones, m1 with t1 (unlocked, not done) and t2 (locked), m2 with t3 and
t4 (both locked). -/
def sampleRoadmap : Roadmap :=
  ⟨[⟨"m1", "M1", "d", 2, [mkTask "t1" false false, mkTask "t2" false true]⟩,
    ⟨"m2", "M2", "d", 2, [mkTask "t3" false true, mkTask "t4" false true]⟩]⟩

/-- The sample roadmap after completing t1: what the spec's sample
end-to-end property expects toggleTaskDone to write. -/
def sampleRoadmapAfter : Roadmap :=
  ⟨[⟨"m1", "M1", "d", 2, [mkTask "t1" true false, mkTask "t2" false false]⟩,
    ⟨"m2", "M2", "d", 2, [mkTask "t3" false true, mkTask "t4" false true]⟩]⟩

/-- The value of the caller's input roadmap object after toggleTaskDone
returns, under JavaScript reference semantics.  The source builds
updatedMilestones by spreading: milestones other than the addressed one, and
tasks other than the addressed one, are kept as the same objects as in the
input.  The unlock step (page.tsx lines 140-150) then assigns
task.locked = false in place on a task of updatedMilestones; whenever that
task is not the freshly copied addressed task, the assignment also mutates
the task object inside the input roadmap.  This definition states which task
objects of the input are mutated: exactly those matching the scanned
(nextMilestoneId, nextTaskId) pair that were not replaced by the done-flip
copy, i.e. that do not also match (milestoneId, taskId). -/
def inputAfterToggle (r : Roadmap) (milestoneId taskId : String) : Roadmap :=
  match findCurrentTask r milestoneId taskId with
  | none => r
  | some currentTask =>
    if currentTask.locked then r
    else if currentTask.done then r
    else
      match scanMilestones milestoneId taskId false
              (updatedMilestones r milestoneId taskId) with
      | none => r
      | some (nmid, ntid) =>
        ⟨r.milestones.map fun m =>
          if m.id == nmid then
            { m with tasks := m.tasks.map fun t =>
                if t.id == ntid && !(m.id == milestoneId && t.id == taskId) then
                  { t with locked := false }
                else t }
          else m⟩

/-- Raw parsed-JSON task as read by the generation routes: only the id and
the done and locked flags are inspected or rewritten by the code modelled
here; the remaining display metadata is carried through untouched and is
omitted from the raw model. -/
structure RawTask where
  id : String
  done : Bool
  locked : Bool
deriving DecidableEq, Repr

/-- Raw parsed-JSON milestone: the tasks field may be absent (none). -/
structure RawMilestone where
  id : String
  tasks : Option (List RawTask)
deriving DecidableEq, Repr

/-- Raw parsed-JSON roadmap: the milestones field may be absent or not an
array (none). -/
structure RawRoadmap where
  milestones : Option (List RawMilestone)
deriving DecidableEq, Repr

/-- The named validation failures of the generation route in
src/unnamed/part_001 (lines 181-217), in the order the code raises them. -/
inductive RoadmapError where
  | missingOrEmptyMilestones
  | firstMilestoneNoTasks
  | noTasksGenerated
deriving DecidableEq, Repr

/-- Task count of one raw milestone: m.tasks?.length with fallback 0. -/
def taskCountOf (m : RawMilestone) : ℕ := (m.tasks.getD []).length

/-- Total raw task count across milestones (part_001 lines 205-209). -/
def totalRawTasks (ms : List RawMilestone) : ℕ := (ms.map taskCountOf).sum

/-- The validation and normalization block of the generation route in
src/unnamed/part_001 (lines 181-217): reject a missing, non-array or empty
milestones field; unlock the first task of the first milestone, rejecting
when it does not exist; then reject when the total task count is zero. -/
def validateAndNormalize (roadmap : RawRoadmap) : Except RoadmapError RawRoadmap :=
  match roadmap.milestones with
  | none => .error .missingOrEmptyMilestones
  | some [] => .error .missingOrEmptyMilestones
  | some (m0 :: rest) =>
    match m0.tasks with
    | some (t0 :: ts) =>
      let ms2 := { m0 with tasks := some ({ t0 with locked := false } :: ts) } :: rest
      if totalRawTasks ms2 = 0 then .error .noTasksGenerated
      else .ok ⟨some ms2⟩
    | _ => .error .firstMilestoneNoTasks

/-- The normalization applied on the accepted path of both generation
routes: the first task of the first milestone gets locked set to false,
everything else is carried through verbatim. -/
def forceFirstUnlock (m0 : RawMilestone) (rest : List RawMilestone)
    (t0 : RawTask) (ts : List RawTask) : RawRoadmap :=
  ⟨some ({ m0 with tasks := some ({ t0 with locked := false } :: ts) } :: rest)⟩

/-- The corresponding block of src/app/api/create-project/route.ts (lines
81-111): no structural validation at all; the first task is unlocked when it
exists, the total task count is summed, and project data with progress
zero completed and progressPercent zero is always produced. -/
def createProjectRoute (roadmap : RawRoadmap) : RawRoadmap × Progress :=
  let ms2 : Option (List RawMilestone) :=
    match roadmap.milestones with
    | some (m0 :: rest) =>
      match m0.tasks with
      | some (t0 :: ts) =>
        some ({ m0 with tasks := some ({ t0 with locked := false } :: ts) } :: rest)
      | _ => roadmap.milestones
    | _ => roadmap.milestones
  (⟨ms2⟩, ⟨0, totalRawTasks (ms2.getD []), 0⟩)

/-- All raw tasks of a raw roadmap in global order. -/
def rawAllTasks (r : RawRoadmap) : List RawTask :=
  ((r.milestones.getD []).map fun m => m.tasks.getD []).flatten

/-- Modelled from the spec (section 3): the schema invariants a valid
Roadmap must satisfy — a nonempty milestones array, at least one task per
milestone, and global sequential task ids t1, t2, ... .  This predicate is
spec-side: it states what the claim C5 asks the validator to enforce. -/
def schemaOk (r : RawRoadmap) : Bool :=
  match r.milestones with
  | none => false
  | some ms =>
    !ms.isEmpty &&
    ms.all (fun m => match m.tasks with | some (_ :: _) => true | _ => false) &&
    ((rawAllTasks r).enum.all fun p => p.2.id == "t" ++ toString (p.1 + 1))

/-- Spec-side description (section 4.2) of the unlock effect on the tasks
strictly after the completed one, in global task order with milestone tags:
the first task that is locked and not done has its locked flag set to false;
everything else is unchanged. -/
def unlockFirstLockedT : List (String × Task) → List (String × Task)
  | [] => []
  | (mId, t) :: ps =>
    if t.locked && !t.done then (mId, { t with locked := false }) :: ps
    else (mId, t) :: unlockFirstLockedT ps

/-- Reformulation device for proofs: the next-task scan of toggleTaskDone
expressed over the flattened tagged task list, threading the foundCurrent
flag exactly as the source's nested loops do. -/
def scanFlat (milestoneId taskId : String) :
    Bool → List (String × Task) → Option (String × String)
  | _, [] => none
  | found, (mId, t) :: ps =>
    if found && t.locked && !t.done then some (mId, t.id)
    else scanFlat milestoneId taskId
      (found || (mId == milestoneId && t.id == taskId)) ps

/-- Iterated application of toggleTaskDone: the roadmap stored after a
sequence of toggle requests, each applied to the previously stored state. -/
def applyToggles (r : Roadmap) : List (String × String) → Roadmap
  | [] => r
  | (milestoneId, taskId) :: ops => applyToggles (applyToggle r milestoneId taskId) ops

/-- A sample roadmap whose first task is already done (and unlocked): input
for exercising the un-complete branch. -/
def sampleRoadmapDone : Roadmap :=
  ⟨[⟨"m1", "M1", "d", 2, [mkTask "t1" true false, mkTask "t2" false false]⟩,
    ⟨"m2", "M2", "d", 2, [mkTask "t3" false true, mkTask "t4" false true]⟩]⟩

/-- A parsed model response with an empty milestones array. -/
def rawEmptyMilestones : RawRoadmap := ⟨some []⟩

/-- A parsed model response whose second milestone has zero tasks: it
violates the schema invariants of spec section 3 but passes every check of
the part_001 validator. -/
def rawSkipsInvariants : RawRoadmap :=
  ⟨some [⟨"m1", some [⟨"t1", false, false⟩]⟩, ⟨"m2", some []⟩]⟩

/-- The normalized output the part_001 validator produces for
rawSkipsInvariants. -/
def rawSkipsInvariantsOut : RawRoadmap :=
  ⟨some [⟨"m1", some [⟨"t1", false, false⟩]⟩, ⟨"m2", some []⟩]⟩

/-- A parsed model response in which the model supplied locked = false and
done = true on the second task. -/
def rawModelFlags : RawRoadmap :=
  ⟨some [⟨"m1", some [⟨"t1", false, true⟩, ⟨"t2", true, false⟩]⟩]⟩

/-- The output the generation routes produce for rawModelFlags: only the
first task's locked flag is rewritten. -/
def rawModelFlagsOut : RawRoadmap :=
  ⟨some [⟨"m1", some [⟨"t1", false, false⟩, ⟨"t2", true, false⟩]⟩]⟩

/-- jsRound evaluation helper: the floor characterization of Math.round. -/
theorem jsRound_eq_of (q : ℚ) (z : ℤ) (h1 : (z : ℚ) ≤ q + 1/2) (h2 : q + 1/2 < z + 1) :
    jsRound q = z := by
  unfold jsRound
  exact Int.floor_eq_iff.mpr ⟨h1, h2⟩

theorem taggedTasks_nil : taggedTasks [] = [] := rfl

theorem taggedTasks_cons (m : Milestone) (ms : List Milestone) :
    taggedTasks (m :: ms) = (m.tasks.map fun t => (m.id, t)) ++ taggedTasks ms := by
  simp [taggedTasks]

/-- The milestone-structured task rewrite common to updatedMilestones,
unlockNext and the aliasing model, expressed on the flattened tagged list. -/
theorem taggedTasks_mapTasks (ms : List Milestone) (x : String) (f : String → Task → Task) :
    taggedTasks (ms.map fun m =>
        if m.id == x then { m with tasks := m.tasks.map (f m.id) } else m)
      = (taggedTasks ms).map fun p => if p.1 == x then (p.1, f p.1 p.2) else p := by
  induction ms with
  | nil => rfl
  | cons m ms ih =>
    by_cases hm : (m.id == x) = true
    · simp only [List.map_cons, if_pos hm, taggedTasks_cons, List.map_append,
        List.map_map, ih]
      congr 1
      apply List.map_congr_left
      intro t _
      simp [Function.comp, hm]
    · simp only [List.map_cons, if_neg hm, taggedTasks_cons, List.map_append,
        List.map_map, ih]
      congr 1
      apply List.map_congr_left
      intro t _
      simp only [Bool.not_eq_true] at hm
      simp [Function.comp, hm]

theorem taggedTasks_updated (r : Roadmap) (milestoneId taskId : String) :
    taggedTasks (updatedMilestones r milestoneId taskId)
      = (allTasksTagged r).map fun p =>
          if p.1 == milestoneId && p.2.id == taskId then
            (p.1, { p.2 with done := !p.2.done }) else p := by
  have h := taggedTasks_mapTasks r.milestones milestoneId
    (fun _ t => if t.id == taskId then { t with done := !t.done } else t)
  rw [updatedMilestones, allTasksTagged]
  rw [h]
  apply List.map_congr_left
  intro p _
  by_cases h1 : (p.1 == milestoneId) = true <;>
    by_cases h2 : (p.2.id == taskId) = true <;>
    simp [h1, h2]

theorem taggedTasks_unlockNext (ms : List Milestone) (nmid ntid : String) :
    taggedTasks (unlockNext ms nmid ntid)
      = (taggedTasks ms).map fun p =>
          if p.1 == nmid && p.2.id == ntid then
            (p.1, { p.2 with locked := false }) else p := by
  have h := taggedTasks_mapTasks ms nmid
    (fun _ t => if t.id == ntid then { t with locked := false } else t)
  rw [unlockNext]
  rw [h]
  apply List.map_congr_left
  intro p _
  by_cases h1 : (p.1 == nmid) = true <;>
    by_cases h2 : (p.2.id == ntid) = true <;>
    simp [h1, h2]

/-- The nested next-task scan equals the flat scan on the tagged task list. -/
theorem scanFlat_tasks (milestoneId taskId mId : String) (found : Bool)
    (ts : List Task) (ps : List (String × Task)) :
    scanFlat milestoneId taskId found ((ts.map fun t => (mId, t)) ++ ps)
      = match scanTasks milestoneId taskId mId found ts with
        | (_, some nt) => some nt
        | (f2, none) => scanFlat milestoneId taskId f2 ps := by
  induction ts generalizing found with
  | nil => simp [scanTasks]
  | cons t ts ih =>
    by_cases h : (found && t.locked && !t.done) = true
    · simp [scanFlat, scanTasks, h]
    · simp only [List.map_cons, List.cons_append, scanFlat, scanTasks, if_neg h]
      exact ih _

theorem scanMilestones_eq_scanFlat (milestoneId taskId : String) (found : Bool)
    (ms : List Milestone) :
    scanMilestones milestoneId taskId found ms
      = scanFlat milestoneId taskId found (taggedTasks ms) := by
  induction ms generalizing found with
  | nil => rfl
  | cons m ms ih =>
    rw [taggedTasks_cons, scanFlat_tasks]
    rw [scanMilestones]
    rcases h : scanTasks milestoneId taskId m.id found m.tasks with ⟨f2, o⟩
    cases o <;> simp [ih]

/-- While the foundCurrent flag is false, elements that do not match the
addressed task are skipped by the flat scan. -/
theorem scanFlat_nomatch (milestoneId taskId : String)
    (A ps : List (String × Task))
    (hA : ∀ q ∈ A, (q.1 == milestoneId && q.2.id == taskId) = false) :
    scanFlat milestoneId taskId false (A ++ ps)
      = scanFlat milestoneId taskId false ps := by
  induction A with
  | nil => rfl
  | cons q A ih =>
    rcases q with ⟨mId, t⟩
    have hq := hA (mId, t) (List.mem_cons_self _ _)
    simp only [List.cons_append, scanFlat, Bool.false_and, if_neg (by simp : ¬(false && t.locked && !t.done) = true)]
    rw [hq]
    simp only [Bool.or_false]
    exact ih fun q hq2 => hA q (List.mem_cons_of_mem _ hq2)

/-- Once the foundCurrent flag is true, the flat scan returns the ids of the
first remaining task that is locked and not done. -/
theorem scanFlat_found (milestoneId taskId : String) (B : List (String × Task)) :
    scanFlat milestoneId taskId true B
      = (B.find? fun p => p.2.locked && !p.2.done).map fun p => (p.1, p.2.id) := by
  induction B with
  | nil => rfl
  | cons q B ih =>
    rcases q with ⟨mId, t⟩
    by_cases h : (t.locked && !t.done) = true
    · simp [scanFlat, h, List.find?_cons_of_pos _ h]
    · have h3 : List.find? (fun p : String × Task => p.2.locked && !p.2.done) ((mId, t) :: B)
          = List.find? (fun p : String × Task => p.2.locked && !p.2.done) B :=
        List.find?_cons_of_neg _ h
      rw [h3]
      simp only [scanFlat, Bool.true_and, if_neg h, Bool.true_or]
      exact ih

/-- A successful find? splits its list into a prefix with no match, the
found element, and a suffix. -/
theorem find?_decomp {α : Type} (p : α → Bool) (l : List α) (a : α)
    (h : l.find? p = some a) :
    ∃ A B, l = A ++ a :: B ∧ ∀ x ∈ A, p x = false := by
  induction l with
  | nil => simp at h
  | cons x xs ih =>
    by_cases hx : p x = true
    · rw [List.find?_cons_of_pos _ hx] at h
      obtain rfl : x = a := by injection h
      exact ⟨[], xs, rfl, by simp⟩
    · rw [List.find?_cons_of_neg _ hx] at h
      obtain ⟨A, B, rfl, hA⟩ := ih h
      refine ⟨x :: A, B, rfl, ?_⟩
      intro y hy
      rcases List.mem_cons.mp hy with rfl | hy2
      · simpa using hx
      · exact hA y hy2

/-- The current-task lookup equals a find? over the flattened tagged list. -/
theorem findCurrentTask_eq_find? (r : Roadmap) (milestoneId taskId : String) :
    findCurrentTask r milestoneId taskId
      = ((allTasksTagged r).find? fun p =>
          p.1 == milestoneId && p.2.id == taskId).map Prod.snd := by
  rw [findCurrentTask, allTasksTagged]
  induction r.milestones with
  | nil => rfl
  | cons m ms ih =>
    rw [taggedTasks_cons, List.findSome?_cons, List.find?_append, List.find?_map]
    have hcomp : ((fun p : String × Task => p.1 == milestoneId && p.2.id == taskId) ∘
        fun t => (m.id, t)) = fun t => m.id == milestoneId && t.id == taskId := rfl
    rw [hcomp]
    rcases h : m.tasks.find? fun t => m.id == milestoneId && t.id == taskId with _ | t
    · simp [h, ih]
    · simp [h]

/-- When no remaining task is locked and not done, the spec-side unlock
leaves the suffix unchanged. -/
theorem unlockFirstLockedT_of_none (B : List (String × Task))
    (h : (B.find? fun p => p.2.locked && !p.2.done) = none) :
    unlockFirstLockedT B = B := by
  induction B with
  | nil => rfl
  | cons q B ih =>
    rcases q with ⟨mId, t⟩
    rw [List.find?_eq_none] at h
    have ht : ¬(t.locked && !t.done) = true :=
      h (mId, t) (List.mem_cons_self _ _)
    rw [unlockFirstLockedT, if_neg ht]
    rw [ih (List.find?_eq_none.mpr fun x hx => h x (List.mem_cons_of_mem _ hx))]

/-- The id-addressed unlock rewrite of toggleTaskDone applied to a suffix
whose task ids are pairwise distinct equals the spec-side first-locked
unlock, when the addressed ids come from the first locked-and-not-done
element of the suffix. -/
theorem map_unlock_first (B : List (String × Task)) (q : String × Task)
    (hfind : (B.find? fun p => p.2.locked && !p.2.done) = some q)
    (hnd : (B.map fun p => p.2.id).Nodup) :
    (B.map fun p => if p.1 == q.1 && p.2.id == q.2.id then
        (p.1, { p.2 with locked := false }) else p)
      = unlockFirstLockedT B := by
  induction B with
  | nil => simp at hfind
  | cons x xs ih =>
    rcases x with ⟨mId, t⟩
    rw [List.map_cons] at hnd
    rw [List.nodup_cons] at hnd
    obtain ⟨hnotmem, hndtail⟩ := hnd
    by_cases hx : (t.locked && !t.done) = true
    · have hsplit : List.find? (fun p : String × Task => p.2.locked && !p.2.done)
          ((mId, t) :: xs) = some (mId, t) := List.find?_cons_of_pos _ hx
      rw [hsplit] at hfind
      obtain rfl : q = (mId, t) := by injection hfind with h2; exact h2.symm
      rw [List.map_cons, unlockFirstLockedT, if_pos hx]
      simp only [beq_self_eq_true, Bool.and_self, if_pos]
      congr 1
      have : ∀ x ∈ xs, (if x.1 == mId && x.2.id == t.id then
          (x.1, { x.2 with locked := false }) else x) = x := by
        intro x hx2
        have : (x.2.id == t.id) = false := by
          rw [beq_eq_false_iff_ne]
          intro hc
          exact hnotmem (hc ▸ List.mem_map_of_mem (fun p => p.2.id) hx2)
        simp [this]
      rw [List.map_congr_left this]
      simp
    · have hsplit : List.find? (fun p : String × Task => p.2.locked && !p.2.done)
          ((mId, t) :: xs)
          = List.find? (fun p : String × Task => p.2.locked && !p.2.done) xs :=
        List.find?_cons_of_neg _ hx
      rw [hsplit] at hfind
      have hqmem : q ∈ xs := List.mem_of_find?_eq_some hfind
      rw [List.map_cons, unlockFirstLockedT, if_neg hx]
      have hhead : ((mId, t).2.id == q.2.id) = false := by
        rw [beq_eq_false_iff_ne]
        intro hc
        exact hnotmem (hc ▸ List.mem_map_of_mem (fun p => p.2.id) hqmem)
      simp only [hhead, Bool.and_false, Bool.false_eq_true, if_neg, ite_false]
      rw [ih hfind hndtail]

theorem wf_tagged (r : Roadmap) (hwf : WfTaskIds r) :
    ((allTasksTagged r).map fun p => p.2.id).Nodup := by
  rw [WfTaskIds, allTasks, List.map_map] at hwf
  exact hwf

/-- Shared decomposition: a found current task splits the tagged task list
into a matchless prefix, the task itself, and a suffix; under well-formed
ids the suffix and prefix contain no task sharing its id, and the done-flip
rewrite changes exactly the found entry. -/
theorem toggle_decomp (r : Roadmap) (milestoneId taskId : String) (cur : Task)
    (hwf : WfTaskIds r)
    (hfind : findCurrentTask r milestoneId taskId = some cur) :
    ∃ A B,
      allTasksTagged r = A ++ (milestoneId, cur) :: B ∧
      cur.id = taskId ∧
      (∀ x ∈ A, (x.1 == milestoneId && x.2.id == taskId) = false) ∧
      (∀ x ∈ B, (x.2.id == cur.id) = false) ∧
      (∀ x ∈ A, (x.2.id == cur.id) = false) ∧
      ((B.map fun p => p.2.id).Nodup) ∧
      (∀ x ∈ A, ∀ y ∈ B, (x.2.id == y.2.id) = false) ∧
      taggedTasks (updatedMilestones r milestoneId taskId)
        = A ++ (milestoneId, { cur with done := !cur.done }) :: B := by
  have hflat : ((allTasksTagged r).find? fun p =>
      p.1 == milestoneId && p.2.id == taskId).map Prod.snd = some cur := by
    rw [← findCurrentTask_eq_find?]
    exact hfind
  rcases hq : (allTasksTagged r).find? fun p => p.1 == milestoneId && p.2.id == taskId
    with _ | q
  · rw [hq] at hflat
    simp at hflat
  rw [hq] at hflat
  have hpred := List.find?_some hq
  simp only [Bool.and_eq_true, beq_iff_eq] at hpred
  have hq2 : q.2 = cur := by simpa using hflat
  have htid : cur.id = taskId := hq2 ▸ hpred.2
  have hqpair : q = (milestoneId, cur) := by
    rcases q with ⟨a, b⟩
    simp only [Prod.mk.injEq]
    exact ⟨hpred.1, hq2⟩
  rw [hqpair] at hq
  obtain ⟨A, B, hdecomp, hA⟩ := find?_decomp _ _ _ hq
  have hnd := wf_tagged r hwf
  rw [hdecomp, List.map_append, List.map_cons, List.nodup_append] at hnd
  obtain ⟨hndA, hndcons, hdisj⟩ := hnd
  rw [List.nodup_cons] at hndcons
  obtain ⟨hcurnotB, hndB⟩ := hndcons
  have hB : ∀ x ∈ B, (x.2.id == cur.id) = false := by
    intro x hx
    rw [beq_eq_false_iff_ne]
    intro hc
    exact hcurnotB (hc ▸ List.mem_map_of_mem (fun p => p.2.id) hx)
  have hAid : ∀ x ∈ A, (x.2.id == cur.id) = false := by
    intro x hx
    rw [beq_eq_false_iff_ne]
    intro hc
    exact hdisj (List.mem_map_of_mem (fun p => p.2.id) hx)
      (hc ▸ List.mem_cons_self _ _)
  have hAB : ∀ x ∈ A, ∀ y ∈ B, (x.2.id == y.2.id) = false := by
    intro x hx y hy
    rw [beq_eq_false_iff_ne]
    intro hc
    exact hdisj (List.mem_map_of_mem (fun p => p.2.id) hx)
      (hc ▸ List.mem_cons_of_mem _ (List.mem_map_of_mem (fun p => p.2.id) hy))
  refine ⟨A, B, hdecomp, htid, hA, hB, hAid, hndB, hAB, ?_⟩
  rw [taggedTasks_updated, hdecomp, List.map_append, List.map_cons]
  congr 1
  · have hid : ∀ x ∈ A, (if (x.1 == milestoneId && x.2.id == taskId) = true then
        (x.1, { x.2 with done := !x.2.done }) else x) = x := by
      intro x hx
      rw [hA x hx]
      simp
    rw [List.map_congr_left hid]
    simp
  · congr 1
    · simp [← htid]
    · have hid : ∀ x ∈ B, (if (x.1 == milestoneId && x.2.id == taskId) = true then
          (x.1, { x.2 with done := !x.2.done }) else x) = x := by
        intro x hx
        have hxid : (x.2.id == taskId) = false := htid ▸ hB x hx
        rw [hxid]
        simp
      rw [List.map_congr_left hid]
      simp

/-- Claim C8: toggling an unlocked, done task (un-completing) flips that task's
done flag to false and changes nothing else: every other task, including
every locked flag in the whole roadmap, is exactly as before. -/
theorem uncomplete_flips_done_only (r : Roadmap) (milestoneId taskId : String) (cur : Task)
    (hwf : WfTaskIds r)
    (hfind : findCurrentTask r milestoneId taskId = some cur)
    (hl : cur.locked = false) (hd : cur.done = true) :
    ∃ A B r2 p,
      allTasksTagged r = A ++ (milestoneId, cur) :: B ∧
      toggleTaskDone r milestoneId taskId = some (r2, p) ∧
      allTasksTagged r2 = A ++ (milestoneId, { cur with done := false }) :: B := by
  obtain ⟨A, B, hdecomp, htid, hA, hB, hAid, hndB, hAB, hms1⟩ :=
    toggle_decomp r milestoneId taskId cur hwf hfind
  rw [hd] at hms1
  simp only [Bool.not_true] at hms1
  have htog : toggleTaskDone r milestoneId taskId
      = some (⟨updatedMilestones r milestoneId taskId⟩,
          ⟨completedTasksOf (updatedMilestones r milestoneId taskId),
           totalTasksOf (updatedMilestones r milestoneId taskId),
           jsRound ((completedTasksOf (updatedMilestones r milestoneId taskId) : ℚ)
             / (totalTasksOf (updatedMilestones r milestoneId taskId) : ℚ) * 100)⟩) := by
    simp only [toggleTaskDone, hfind, hl, hd, Bool.not_true, Bool.false_eq_true,
      if_false, ite_false]
  exact ⟨A, B, _, _, hdecomp, htog, hms1⟩

theorem uncomplete_flips_done_only_witness :
    ∃ A B r2 p,
      allTasksTagged sampleRoadmapDone = A ++ ("m1", mkTask "t1" true false) :: B ∧
      toggleTaskDone sampleRoadmapDone "m1" "t1" = some (r2, p) ∧
      allTasksTagged r2
        = A ++ ("m1", { mkTask "t1" true false with done := false }) :: B :=
  uncomplete_flips_done_only sampleRoadmapDone "m1" "t1" (mkTask "t1" true false)
    (by decide) (by decide) rfl rfl

/-- Claim C1: completing an unlocked, not-done task sets its done flag and then
changes the locked flag of exactly the first locked, not-done task strictly
after it in global task order (prefix and all other suffix entries are
returned verbatim, so at most one locked flag changes, and none when no
such task exists: unlockFirstLockedT unlocks exactly the first locked
not-done entry of the suffix and keeps everything else). -/
theorem complete_unlocks_first_after (r : Roadmap) (milestoneId taskId : String) (cur : Task)
    (hwf : WfTaskIds r)
    (hfind : findCurrentTask r milestoneId taskId = some cur)
    (hl : cur.locked = false) (hd : cur.done = false) :
    ∃ A B r2 p,
      allTasksTagged r = A ++ (milestoneId, cur) :: B ∧
      (∀ x ∈ A, (x.1 == milestoneId && x.2.id == taskId) = false) ∧
      toggleTaskDone r milestoneId taskId = some (r2, p) ∧
      allTasksTagged r2
        = A ++ (milestoneId, { cur with done := true }) :: unlockFirstLockedT B := by
  obtain ⟨A, B, hdecomp, htid, hA, hB, hAid, hndB, hAB, hms1⟩ :=
    toggle_decomp r milestoneId taskId cur hwf hfind
  rw [hd] at hms1
  simp only [Bool.not_false] at hms1
  have hscan : scanMilestones milestoneId taskId false
        (updatedMilestones r milestoneId taskId)
      = (B.find? fun p => p.2.locked && !p.2.done).map fun p => (p.1, p.2.id) := by
    rw [scanMilestones_eq_scanFlat, hms1, scanFlat_nomatch milestoneId taskId A _ hA]
    have hstep : scanFlat milestoneId taskId false
          ((milestoneId, { cur with done := true }) :: B)
        = scanFlat milestoneId taskId true B := by
      simp [scanFlat, htid]
    rw [hstep, scanFlat_found]
  rcases hfound : B.find? fun p => p.2.locked && !p.2.done with _ | q2
  · rw [hfound] at hscan
    simp only [Option.map_none'] at hscan
    have htog : toggleTaskDone r milestoneId taskId
        = some (⟨updatedMilestones r milestoneId taskId⟩,
            ⟨completedTasksOf (updatedMilestones r milestoneId taskId),
             totalTasksOf (updatedMilestones r milestoneId taskId),
             jsRound ((completedTasksOf (updatedMilestones r milestoneId taskId) : ℚ)
               / (totalTasksOf (updatedMilestones r milestoneId taskId) : ℚ) * 100)⟩) := by
      simp only [toggleTaskDone, hfind, hl, hd, Bool.not_false, Bool.false_eq_true,
        if_false, ite_false, if_true, ite_true, hscan]
    refine ⟨A, B, _, _, hdecomp, hA, htog, ?_⟩
    rw [unlockFirstLockedT_of_none B hfound]
    exact hms1
  · rw [hfound] at hscan
    simp only [Option.map_some'] at hscan
    have hq2mem : q2 ∈ B := List.mem_of_find?_eq_some hfound
    have htog : toggleTaskDone r milestoneId taskId
        = some (⟨unlockNext (updatedMilestones r milestoneId taskId) q2.1 q2.2.id⟩,
            ⟨completedTasksOf (unlockNext (updatedMilestones r milestoneId taskId) q2.1 q2.2.id),
             totalTasksOf (unlockNext (updatedMilestones r milestoneId taskId) q2.1 q2.2.id),
             jsRound ((completedTasksOf (unlockNext (updatedMilestones r milestoneId taskId) q2.1 q2.2.id) : ℚ)
               / (totalTasksOf (unlockNext (updatedMilestones r milestoneId taskId) q2.1 q2.2.id) : ℚ) * 100)⟩) := by
      simp only [toggleTaskDone, hfind, hl, hd, Bool.not_false, Bool.false_eq_true,
        if_false, ite_false, if_true, ite_true, hscan]
    refine ⟨A, B, _, _, hdecomp, hA, htog, ?_⟩
    show taggedTasks (unlockNext (updatedMilestones r milestoneId taskId) q2.1 q2.2.id) = _
    rw [taggedTasks_unlockNext, hms1, List.map_append, List.map_cons]
    congr 1
    · have hid : ∀ x ∈ A, (if (x.1 == q2.1 && x.2.id == q2.2.id) = true then
          (x.1, { x.2 with locked := false }) else x) = x := by
        intro x hx
        rw [hAB x hx q2 hq2mem]
        simp
      rw [List.map_congr_left hid]
      simp
    · congr 1
      · have hcid : (cur.id == q2.2.id) = false := by
          rw [beq_eq_false_iff_ne]
          intro hc
          have := hB q2 hq2mem
          rw [beq_eq_false_iff_ne] at this
          exact this hc.symm
        simp [hcid]
      · exact map_unlock_first B q2 hfound hndB

theorem complete_unlocks_first_after_witness :
    ∃ A B r2 p,
      allTasksTagged sampleRoadmap = A ++ ("m1", mkTask "t1" false false) :: B ∧
      (∀ x ∈ A, (x.1 == "m1" && x.2.id == "t1") = false) ∧
      toggleTaskDone sampleRoadmap "m1" "t1" = some (r2, p) ∧
      allTasksTagged r2
        = A ++ ("m1", { mkTask "t1" false false with done := true })
            :: unlockFirstLockedT B :=
  complete_unlocks_first_after sampleRoadmap "m1" "t1" (mkTask "t1" false false)
    (by decide) (by decide) rfl rfl

theorem totalTasksOf_eq (ms : List Milestone) :
    totalTasksOf ms = (taggedTasks ms).length := by
  induction ms with
  | nil => rfl
  | cons m ms ih =>
    have h1 : totalTasksOf (m :: ms) = m.tasks.length + totalTasksOf ms := by
      simp [totalTasksOf]
    rw [h1, ih, taggedTasks_cons, List.length_append, List.length_map]

theorem completedTasksOf_eq (ms : List Milestone) :
    completedTasksOf ms
      = (((taggedTasks ms).map Prod.snd).filter fun t => t.done).length := by
  induction ms with
  | nil => rfl
  | cons m ms ih =>
    simp only [completedTasksOf, List.map_cons, List.sum_cons, taggedTasks_cons,
      List.map_append, List.filter_append, List.length_append, List.map_map]
    rw [← ih]
    simp [completedTasksOf, Function.comp]

theorem totalTasksOf_updated (r : Roadmap) (milestoneId taskId : String) :
    totalTasksOf (updatedMilestones r milestoneId taskId)
      = totalTasksOf r.milestones := by
  rw [totalTasksOf_eq, totalTasksOf_eq, taggedTasks_updated, List.length_map]
  rfl

theorem totalTasksOf_unlockNext (ms : List Milestone) (a b : String) :
    totalTasksOf (unlockNext ms a b) = totalTasksOf ms := by
  rw [totalTasksOf_eq, totalTasksOf_eq, taggedTasks_unlockNext, List.length_map]

/-- Any successful toggleTaskDone call writes the progress record computed
from its written milestone list, whose task count equals the input's, and
presupposes a found current task. -/
theorem toggleTaskDone_some_shape (r : Roadmap) (milestoneId taskId : String)
    (r2 : Roadmap) (p : Progress)
    (h : toggleTaskDone r milestoneId taskId = some (r2, p)) :
    (r2.milestones = updatedMilestones r milestoneId taskId ∨
      ∃ a b, r2.milestones = unlockNext (updatedMilestones r milestoneId taskId) a b) ∧
    p = ⟨completedTasksOf r2.milestones, totalTasksOf r2.milestones,
         jsRound ((completedTasksOf r2.milestones : ℚ)
           / (totalTasksOf r2.milestones : ℚ) * 100)⟩ ∧
    ∃ cur, findCurrentTask r milestoneId taskId = some cur := by
  rcases hfind : findCurrentTask r milestoneId taskId with _ | cur
  · simp [toggleTaskDone, hfind] at h
  by_cases hl : cur.locked = true
  · simp [toggleTaskDone, hfind, hl] at h
  by_cases hd : cur.done = true
  · simp only [toggleTaskDone, hfind, if_neg hl, hd, Bool.not_true,
      Bool.false_eq_true, if_false, ite_false] at h
    injection h with h1
    injection h1 with hr hp
    subst hr
    subst hp
    exact ⟨Or.inl rfl, rfl, cur, rfl⟩
  · have hd2 : cur.done = false := by
      rcases hdb : cur.done with _ | _
      · rfl
      · exact absurd hdb hd
    rcases hscan : scanMilestones milestoneId taskId false
        (updatedMilestones r milestoneId taskId) with _ | q2
    · simp only [toggleTaskDone, hfind, if_neg hl, hd2, Bool.not_false,
        if_true, ite_true, hscan] at h
      injection h with h1
      injection h1 with hr hp
      subst hr
      subst hp
      exact ⟨Or.inl rfl, rfl, cur, rfl⟩
    · rcases q2 with ⟨a, b⟩
      simp only [toggleTaskDone, hfind, if_neg hl, hd2, Bool.not_false,
        if_true, ite_true, hscan] at h
      injection h with h1
      injection h1 with hr hp
      subst hr
      subst hp
      exact ⟨Or.inr ⟨a, b, rfl⟩, rfl, cur, rfl⟩

/-- Numeric facts about the rounded percentage. -/
theorem jsRound_percent_bounds (c t : ℕ) (hct : c ≤ t) (hpos : 0 < t) :
    jsRound ((c : ℚ) / (t : ℚ) * 100) = jsRound (100 * (c : ℚ) / (t : ℚ)) ∧
    0 ≤ jsRound ((c : ℚ) / (t : ℚ) * 100) ∧
    jsRound ((c : ℚ) / (t : ℚ) * 100) ≤ 100 := by
  have htQ : (0 : ℚ) < t := by exact_mod_cast hpos
  have h0 : (0 : ℚ) ≤ (c : ℚ) / t := div_nonneg (by positivity) htQ.le
  have h1 : (c : ℚ) / t ≤ 1 := (div_le_one htQ).mpr (by exact_mod_cast hct)
  refine ⟨congrArg jsRound (by ring), ?_, ?_⟩
  · unfold jsRound
    have : (0 : ℚ) ≤ (c : ℚ) / t * 100 + 1/2 := by nlinarith
    exact_mod_cast Int.le_floor.mpr (by push_cast; linarith)
  · unfold jsRound
    have hlt : (c : ℚ) / t * 100 + 1/2 < 101 := by nlinarith
    have := Int.floor_lt.mpr (show (c : ℚ) / t * 100 + 1/2 < ((101 : ℤ) : ℚ) by push_cast; linarith)
    omega

/-- Claim C2: the progress record written by any successful toggleTaskDone call
satisfies: totalTasks is the number of tasks across all milestones (of the
written roadmap, equal to the input's), completedTasks counts the done
tasks, 0 <= completedTasks <= totalTasks, progressPercent equals
round(100 * completedTasks / totalTasks) and lies in [0, 100]; totalTasks
is positive, so the totalTasks = 0 clause holds vacuously. -/
theorem toggle_progress_consistent (r : Roadmap) (milestoneId taskId : String)
    (r2 : Roadmap) (p : Progress)
    (h : toggleTaskDone r milestoneId taskId = some (r2, p)) :
    p.totalTasks = (allTasks r2).length ∧
    p.totalTasks = (allTasks r).length ∧
    p.completedTasks = ((allTasks r2).filter fun t => t.done).length ∧
    p.completedTasks ≤ p.totalTasks ∧
    0 < p.totalTasks ∧
    p.progressPercent = jsRound (100 * (p.completedTasks : ℚ) / (p.totalTasks : ℚ)) ∧
    0 ≤ p.progressPercent ∧ p.progressPercent ≤ 100 ∧
    (p.totalTasks = 0 → p.progressPercent = 0) := by
  obtain ⟨hdisj, hp, cur, hfind⟩ :=
    toggleTaskDone_some_shape r milestoneId taskId r2 p h
  have htoteq : totalTasksOf r2.milestones = totalTasksOf r.milestones := by
    rcases hdisj with hms | ⟨a, b, hms⟩
    · rw [hms, totalTasksOf_updated]
    · rw [hms, totalTasksOf_unlockNext, totalTasksOf_updated]
  have hpos : 0 < totalTasksOf r.milestones := by
    have hflat : ((allTasksTagged r).find? fun q =>
        q.1 == milestoneId && q.2.id == taskId).map Prod.snd = some cur := by
      rw [← findCurrentTask_eq_find?]
      exact hfind
    rcases hq : (allTasksTagged r).find? fun q =>
        q.1 == milestoneId && q.2.id == taskId with _ | q
    · rw [hq] at hflat
      simp at hflat
    have hqmem : q ∈ allTasksTagged r := List.mem_of_find?_eq_some hq
    have hlen : 0 < (allTasksTagged r).length := List.length_pos_of_mem hqmem
    rw [totalTasksOf_eq]
    exact hlen
  have hpos2 : 0 < totalTasksOf r2.milestones := htoteq ▸ hpos
  have hle : completedTasksOf r2.milestones ≤ totalTasksOf r2.milestones := by
    rw [completedTasksOf_eq, totalTasksOf_eq]
    calc (((taggedTasks r2.milestones).map Prod.snd).filter fun t => t.done).length
        ≤ ((taggedTasks r2.milestones).map Prod.snd).length :=
          List.length_filter_le _ _
      _ = (taggedTasks r2.milestones).length := List.length_map _ _
  obtain ⟨heqp, hge0, hle100⟩ :=
    jsRound_percent_bounds (completedTasksOf r2.milestones)
      (totalTasksOf r2.milestones) hle hpos2
  subst hp
  refine ⟨?_, ?_, ?_, hle, hpos2, heqp, hge0, hle100, ?_⟩
  · rw [allTasks, List.length_map]
    exact totalTasksOf_eq r2.milestones
  · rw [allTasks, List.length_map]
    rw [htoteq]
    exact totalTasksOf_eq r.milestones
  · exact completedTasksOf_eq r2.milestones
  · intro h0
    exact absurd h0 (Nat.pos_iff_ne_zero.mp hpos2)

theorem toggle_progress_consistent_witness :
    (⟨1, 4, jsRound ((1 : ℚ) / 4 * 100)⟩ : Progress).totalTasks
        = (allTasks sampleRoadmapAfter).length ∧
    (⟨1, 4, jsRound ((1 : ℚ) / 4 * 100)⟩ : Progress).totalTasks
        = (allTasks sampleRoadmap).length ∧
    (⟨1, 4, jsRound ((1 : ℚ) / 4 * 100)⟩ : Progress).completedTasks
        = ((allTasks sampleRoadmapAfter).filter fun t => t.done).length ∧
    (⟨1, 4, jsRound ((1 : ℚ) / 4 * 100)⟩ : Progress).completedTasks
        ≤ (⟨1, 4, jsRound ((1 : ℚ) / 4 * 100)⟩ : Progress).totalTasks ∧
    0 < (⟨1, 4, jsRound ((1 : ℚ) / 4 * 100)⟩ : Progress).totalTasks ∧
    (⟨1, 4, jsRound ((1 : ℚ) / 4 * 100)⟩ : Progress).progressPercent
        = jsRound (100 * ((⟨1, 4, jsRound ((1 : ℚ) / 4 * 100)⟩ : Progress).completedTasks : ℚ)
            / ((⟨1, 4, jsRound ((1 : ℚ) / 4 * 100)⟩ : Progress).totalTasks : ℚ)) ∧
    0 ≤ (⟨1, 4, jsRound ((1 : ℚ) / 4 * 100)⟩ : Progress).progressPercent ∧
    (⟨1, 4, jsRound ((1 : ℚ) / 4 * 100)⟩ : Progress).progressPercent ≤ 100 ∧
    ((⟨1, 4, jsRound ((1 : ℚ) / 4 * 100)⟩ : Progress).totalTasks = 0 →
      (⟨1, 4, jsRound ((1 : ℚ) / 4 * 100)⟩ : Progress).progressPercent = 0) :=
  toggle_progress_consistent sampleRoadmap "m1" "t1" sampleRoadmapAfter
    ⟨1, 4, jsRound ((1 : ℚ) / 4 * 100)⟩ rfl

theorem forall2_locked_of_map (l : List (String × Task))
    (f : String × Task → String × Task)
    (hf : ∀ x, x.2.locked = false → (f x).2.locked = false) :
    List.Forall₂ (fun x y : String × Task => x.2.locked = false → y.2.locked = false)
      l (l.map f) := by
  rw [List.forall₂_map_right_iff]
  exact List.forall₂_same.mpr fun x _ => hf x

theorem forall2_locked_refl (l : List (String × Task)) :
    List.Forall₂ (fun x y : String × Task => x.2.locked = false → y.2.locked = false)
      l l :=
  List.forall₂_same.mpr fun _ _ => id

theorem forall2_locked_trans (l1 l2 l3 : List (String × Task))
    (h12 : List.Forall₂ (fun x y : String × Task =>
      x.2.locked = false → y.2.locked = false) l1 l2)
    (h23 : List.Forall₂ (fun x y : String × Task =>
      x.2.locked = false → y.2.locked = false) l2 l3) :
    List.Forall₂ (fun x y : String × Task =>
      x.2.locked = false → y.2.locked = false) l1 l3 := by
  induction h12 generalizing l3 with
  | nil =>
    cases h23
    exact List.Forall₂.nil
  | cons hxy h ih =>
    cases h23 with
    | cons hyz h2 => exact List.Forall₂.cons (fun hx => hyz (hxy hx)) (ih _ h2)

/-- One toggleTaskDone application never locks an unlocked task. -/
theorem applyToggle_locked_mono (r : Roadmap) (milestoneId taskId : String) :
    List.Forall₂ (fun x y : String × Task => x.2.locked = false → y.2.locked = false)
      (allTasksTagged r) (allTasksTagged (applyToggle r milestoneId taskId)) := by
  rcases htog : toggleTaskDone r milestoneId taskId with _ | rp
  · have happ : applyToggle r milestoneId taskId = r := by
      simp [applyToggle, htog]
    rw [happ]
    exact forall2_locked_refl _
  rcases rp with ⟨r2, p⟩
  obtain ⟨hdisj, -, -⟩ := toggleTaskDone_some_shape r milestoneId taskId r2 p htog
  have happ : applyToggle r milestoneId taskId = r2 := by
    simp [applyToggle, htog]
  rw [happ]
  have hflip : List.Forall₂ (fun x y : String × Task =>
      x.2.locked = false → y.2.locked = false)
      (allTasksTagged r) (taggedTasks (updatedMilestones r milestoneId taskId)) := by
    rw [taggedTasks_updated]
    apply forall2_locked_of_map
    intro x hx
    by_cases hc : (x.1 == milestoneId && x.2.id == taskId) = true
    · simp only [hc, if_true, ite_true]
      exact hx
    · simp only [Bool.not_eq_true] at hc
      simp only [hc, Bool.false_eq_true, if_false, ite_false]
      exact hx
  rcases hdisj with hms | ⟨a, b, hms⟩
  · show List.Forall₂ _ _ (taggedTasks r2.milestones)
    rw [hms]
    exact hflip
  · show List.Forall₂ _ _ (taggedTasks r2.milestones)
    rw [hms, taggedTasks_unlockNext]
    refine forall2_locked_trans _ _ _ hflip ?_
    apply forall2_locked_of_map
    intro x hx
    by_cases hc : (x.1 == a && x.2.id == b) = true
    · simp [hc]
    · simp only [Bool.not_eq_true] at hc
      simp only [hc, Bool.false_eq_true, if_false, ite_false]
      exact hx

theorem applyToggles_append (r : Roadmap) (ops1 ops2 : List (String × String)) :
    applyToggles r (ops1 ++ ops2) = applyToggles (applyToggles r ops1) ops2 := by
  induction ops1 generalizing r with
  | nil => rfl
  | cons op ops ih =>
    rcases op with ⟨a, b⟩
    simp [applyToggles, ih]

theorem applyToggles_locked_mono (r : Roadmap) (ops : List (String × String)) :
    List.Forall₂ (fun x y : String × Task => x.2.locked = false → y.2.locked = false)
      (allTasksTagged r) (allTasksTagged (applyToggles r ops)) := by
  induction ops generalizing r with
  | nil => exact forall2_locked_refl _
  | cons op ops ih =>
    rcases op with ⟨a, b⟩
    exact forall2_locked_trans _ _ _ (applyToggle_locked_mono r a b) (ih _)

/-- Claim C4: under any sequence of toggleTaskDone applications, a task unlocked
in some reached state is still unlocked in every later state: position by
position, locked = false is preserved by any further toggle sequence. -/
theorem unlocked_tasks_monotone (r : Roadmap) (ops1 ops2 : List (String × String)) :
    List.Forall₂ (fun x y : String × Task => x.2.locked = false → y.2.locked = false)
      (allTasksTagged (applyToggles r ops1))
      (allTasksTagged (applyToggles r (ops1 ++ ops2))) := by
  rw [applyToggles_append]
  exact applyToggles_locked_mono _ ops2

theorem taggedTasks_inputMutate (ms : List Milestone)
    (nmid ntid milestoneId taskId : String) :
    taggedTasks (ms.map fun m =>
        if m.id == nmid then
          { m with tasks := m.tasks.map fun t =>
              if t.id == ntid && !(m.id == milestoneId && t.id == taskId) then
                { t with locked := false } else t }
        else m)
      = (taggedTasks ms).map fun q =>
          if q.1 == nmid then
            (q.1, if q.2.id == ntid && !(q.1 == milestoneId && q.2.id == taskId) then
              { q.2 with locked := false } else q.2)
          else q :=
  taggedTasks_mapTasks ms nmid fun mId t =>
    if t.id == ntid && !(mId == milestoneId && t.id == taskId) then
      { t with locked := false } else t

/-- Claim C9 amended: toggleTaskDone computes a new roadmap value but is not pure
with respect to its input.  The first conjunct states that, apart from the
locked flags, the input roadmap is unchanged after the call (erasing locked
on both sides gives equal task lists, tags included); the second states
that an input locked flag can only change from true to false (an unlocked
input task stays unlocked).  The counterexample shows the change is real:
the successor task unlocked by a completion is shared by reference with the
input and its locked flag is assigned in place. -/
theorem toggle_input_aliasing (r : Roadmap) (milestoneId taskId : String) :
    ((allTasksTagged (inputAfterToggle r milestoneId taskId)).map
        fun q => (q.1, { q.2 with locked := false }))
      = ((allTasksTagged r).map fun q => (q.1, { q.2 with locked := false })) ∧
    List.Forall₂ (fun x y : String × Task => x.2.locked = false → y.2.locked = false)
      (allTasksTagged r) (allTasksTagged (inputAfterToggle r milestoneId taskId)) := by
  rcases hfind : findCurrentTask r milestoneId taskId with _ | cur
  · have heq : inputAfterToggle r milestoneId taskId = r := by
      simp [inputAfterToggle, hfind]
    rw [heq]
    exact ⟨rfl, forall2_locked_refl _⟩
  by_cases hl : cur.locked = true
  · have heq : inputAfterToggle r milestoneId taskId = r := by
      simp [inputAfterToggle, hfind, hl]
    rw [heq]
    exact ⟨rfl, forall2_locked_refl _⟩
  by_cases hd : cur.done = true
  · have heq : inputAfterToggle r milestoneId taskId = r := by
      simp [inputAfterToggle, hfind, hl, hd]
    rw [heq]
    exact ⟨rfl, forall2_locked_refl _⟩
  rcases hscan : scanMilestones milestoneId taskId false
      (updatedMilestones r milestoneId taskId) with _ | q2
  · have heq : inputAfterToggle r milestoneId taskId = r := by
      simp [inputAfterToggle, hfind, hl, hd, hscan]
    rw [heq]
    exact ⟨rfl, forall2_locked_refl _⟩
  rcases q2 with ⟨nmid, ntid⟩
  have heq : inputAfterToggle r milestoneId taskId
      = ⟨r.milestones.map fun m =>
          if m.id == nmid then
            { m with tasks := m.tasks.map fun t =>
                if t.id == ntid && !(m.id == milestoneId && t.id == taskId) then
                  { t with locked := false } else t }
          else m⟩ := by
    simp [inputAfterToggle, hfind, hl, hd, hscan]
  have htag : allTasksTagged (inputAfterToggle r milestoneId taskId)
      = (allTasksTagged r).map fun q =>
          if q.1 == nmid then
            (q.1, if q.2.id == ntid && !(q.1 == milestoneId && q.2.id == taskId) then
              { q.2 with locked := false } else q.2)
          else q := by
    rw [heq]
    exact taggedTasks_inputMutate r.milestones nmid ntid milestoneId taskId
  rw [htag]
  constructor
  · rw [List.map_map]
    apply List.map_congr_left
    intro q _
    simp only [Function.comp_apply]
    by_cases h1 : (q.1 == nmid) = true
    · rw [if_pos h1]
      by_cases h2 : (q.2.id == ntid && !(q.1 == milestoneId && q.2.id == taskId)) = true
      · rw [if_pos h2]
      · rw [if_neg h2]
    · rw [if_neg h1]
  · apply forall2_locked_of_map
    intro x hx
    by_cases h1 : (x.1 == nmid) = true
    · rw [if_pos h1]
      by_cases h2 : (x.2.id == ntid && !(x.1 == milestoneId && x.2.id == taskId)) = true
      · rw [if_pos h2]
      · rw [if_neg h2]
        exact hx
    · rw [if_neg h1]
      exact hx

/-- Claim C7: on the spec's sample roadmap (m1 with t1 unlocked-not-done and t2
locked, m2 with t3 and t4 locked), completing t1 yields t1 done and
unlocked, t2 newly unlocked and not done, t3 and t4 unchanged locked, and
progress completedTasks 1, totalTasks 4, progressPercent 25. -/
theorem sample_end_to_end :
    toggleTaskDone sampleRoadmap "m1" "t1" = some (sampleRoadmapAfter, ⟨1, 4, 25⟩) := by
  have h : toggleTaskDone sampleRoadmap "m1" "t1" =
      some (sampleRoadmapAfter, ⟨1, 4, jsRound ((1 : ℚ) / 4 * 100)⟩) := rfl
  rw [h, jsRound_eq_of ((1 : ℚ) / 4 * 100) 25 (by norm_num) (by norm_num)]

/-- Claim C3: toggleTaskDone on a task whose locked flag is true is a no-op: the
source returns before building any update, so nothing is persisted and the
stored roadmap is structurally unchanged. -/
theorem toggle_locked_noop (r : Roadmap) (milestoneId taskId : String) (cur : Task)
    (hfind : findCurrentTask r milestoneId taskId = some cur)
    (hl : cur.locked = true) :
    toggleTaskDone r milestoneId taskId = none ∧
      applyToggle r milestoneId taskId = r := by
  have h : toggleTaskDone r milestoneId taskId = none := by
    unfold toggleTaskDone
    rw [hfind]
    simp [hl]
  refine ⟨h, ?_⟩
  unfold applyToggle
  rw [h]

theorem toggle_locked_noop_witness :
    toggleTaskDone sampleRoadmap "m1" "t2" = none ∧
      applyToggle sampleRoadmap "m1" "t2" = sampleRoadmap :=
  toggle_locked_noop sampleRoadmap "m1" "t2" (mkTask "t2" false true) (by decide) rfl

/-- Claim C10: when the (milestoneId, taskId) pair does not identify any task
inside a milestone with that id, toggleTaskDone silently does nothing: no
error, nothing persisted, the stored roadmap unchanged. -/
theorem toggle_missing_noop (r : Roadmap) (milestoneId taskId : String)
    (h : ∀ m ∈ r.milestones, ∀ t ∈ m.tasks, ¬(m.id = milestoneId ∧ t.id = taskId)) :
    toggleTaskDone r milestoneId taskId = none ∧
      applyToggle r milestoneId taskId = r := by
  have hf : findCurrentTask r milestoneId taskId = none := by
    unfold findCurrentTask
    rw [List.findSome?_eq_none_iff]
    intro m hm
    rw [List.find?_eq_none]
    intro t ht
    simp only [Bool.and_eq_true, beq_iff_eq]
    exact fun hc => h m hm t ht hc
  have h2 : toggleTaskDone r milestoneId taskId = none := by
    unfold toggleTaskDone
    rw [hf]
  refine ⟨h2, ?_⟩
  unfold applyToggle
  rw [h2]

theorem toggle_missing_noop_witness :
    toggleTaskDone sampleRoadmap "m2" "t9" = none ∧
      applyToggle sampleRoadmap "m2" "t9" = sampleRoadmap :=
  toggle_missing_noop sampleRoadmap "m2" "t9" (by decide)

/-- Claim C5 counterexample: the part_001 validator accepts a parsed value whose
second milestone has zero tasks, returning it as ok although it violates
the schema invariants; and the create-project route accepts an empty
milestones array outright, producing a zero-progress roadmap. -/
theorem validator_accepts_invalid :
    (validateAndNormalize rawSkipsInvariants = Except.ok rawSkipsInvariantsOut ∧
      schemaOk rawSkipsInvariantsOut = false) ∧
    createProjectRoute rawEmptyMilestones = (rawEmptyMilestones, ⟨0, 0, 0⟩) :=
  ⟨⟨rfl, by decide⟩, rfl⟩

/-- Claim C5 amended: the part_001 generation route rejects exactly a missing or
non-array or empty milestones field (named missingOrEmptyMilestones, so an
empty milestones array is always rejected there), and a first milestone
without a first task (named firstMilestoneNoTasks); it accepts every other
parsed value, so the invariants on later milestones and on task ids are
not enforced. -/
theorem validator_amended (raw : RawRoadmap) :
    (validateAndNormalize raw = .error .missingOrEmptyMilestones ↔
        raw.milestones = none ∨ raw.milestones = some []) ∧
    (validateAndNormalize raw = .error .firstMilestoneNoTasks ↔
        ∃ m0 rest, raw.milestones = some (m0 :: rest) ∧
          (m0.tasks = none ∨ m0.tasks = some [])) ∧
    ((∃ out, validateAndNormalize raw = .ok out) ↔
        ∃ m0 rest t0 ts, raw.milestones = some (m0 :: rest) ∧
          m0.tasks = some (t0 :: ts)) := by
  obtain ⟨ms⟩ := raw
  rcases ms with _ | mslist
  · simp [validateAndNormalize]
  rcases mslist with _ | ⟨m0, rest⟩
  · simp [validateAndNormalize]
  obtain ⟨mid0, mtasks⟩ := m0
  rcases mtasks with _ | tlist
  · simp [validateAndNormalize]
  rcases tlist with _ | ⟨t0, ts⟩
  · simp [validateAndNormalize]
  have hne : totalRawTasks
      ((⟨mid0, some ({ t0 with locked := false } :: ts)⟩ : RawMilestone) :: rest) ≠ 0 := by
    simp [totalRawTasks, taskCountOf]
  simp [validateAndNormalize, hne]

theorem validator_amended_witness :
    validateAndNormalize rawEmptyMilestones = .error .missingOrEmptyMilestones :=
  (validator_amended rawEmptyMilestones).1.mpr (Or.inr rfl)

/-- Claim C6 counterexample: a parsed response in which the model set the second
task to locked false and done true is accepted by the part_001 validator,
and the accepted output keeps those model-supplied flags: it is false that
every task other than the first ends locked and not done. -/
theorem adapter_trusts_model_flags :
    validateAndNormalize rawModelFlags = Except.ok rawModelFlagsOut ∧
    ¬ (∀ p ∈ (rawAllTasks rawModelFlagsOut).drop 1,
        p.locked = true ∧ p.done = false) :=
  ⟨rfl, by decide⟩

/-- Claim C6 amended: on every accepted response, both generation routes set the
first task of the first milestone to locked false and keep every other task
and every flag exactly as the model supplied them. -/
theorem adapter_forces_only_first_task (raw out : RawRoadmap)
    (h : validateAndNormalize raw = Except.ok out) :
    (∃ m0 rest t0 ts,
        raw.milestones = some (m0 :: rest) ∧ m0.tasks = some (t0 :: ts) ∧
        out = forceFirstUnlock m0 rest t0 ts) ∧
    (createProjectRoute raw).1 = out := by
  obtain ⟨ms⟩ := raw
  rcases ms with _ | mslist
  · simp [validateAndNormalize] at h
  rcases mslist with _ | ⟨m0, rest⟩
  · simp [validateAndNormalize] at h
  obtain ⟨mid0, mtasks⟩ := m0
  rcases mtasks with _ | tlist
  · simp [validateAndNormalize] at h
  rcases tlist with _ | ⟨t0, ts⟩
  · simp [validateAndNormalize] at h
  have hne : totalRawTasks
      ((⟨mid0, some ({ t0 with locked := false } :: ts)⟩ : RawMilestone) :: rest) ≠ 0 := by
    simp [totalRawTasks, taskCountOf]
  simp only [validateAndNormalize, if_neg hne] at h
  injection h with h2
  subst h2
  exact ⟨⟨⟨mid0, some (t0 :: ts)⟩, rest, t0, ts, rfl, rfl, rfl⟩, rfl⟩

theorem adapter_forces_only_first_task_witness :
    (∃ m0 rest t0 ts,
        rawModelFlags.milestones = some (m0 :: rest) ∧ m0.tasks = some (t0 :: ts) ∧
        rawModelFlagsOut = forceFirstUnlock m0 rest t0 ts) ∧
    (createProjectRoute rawModelFlags).1 = rawModelFlagsOut :=
  adapter_forces_only_first_task rawModelFlags rawModelFlagsOut rfl

/-- Claim C9 counterexample: completing t1 on the sample roadmap mutates the
caller's input roadmap object (the shared t2 task object has its locked
flag assigned false in place), so the input is not structurally unchanged
after the call. -/
theorem toggle_mutates_input :
    inputAfterToggle sampleRoadmap "m1" "t1" ≠ sampleRoadmap := by
  decide

end BuildMate
